import Mathlib

/-!
Verification of the container equivalence checker of the `assert` package
(`src/assert/assert.go`): the type gate `checkContainerTypes`, the element
extraction (`arrayValues` and the non-blocking channel drain), the multiset
matcher and diagnostic formatter `assertSameArray`, and the entry point
`HasSameElements`, together with the per-element formatter `stringify`.

Element values are modelled by the universe `Elem` (ints and strings, the
element types exercised by the repository's tests); Go's
`reflect.DeepEqual` on these values is decidable equality.
-/

namespace TbnTest

/-- Element types occurring in the model (`int`, `string`). -/
inductive ElemType
  | int
  | str
deriving DecidableEq, Repr, Fintype

/-- An element value; `reflect.DeepEqual` on elements is `=` (decidable). -/
inductive Elem
  | int (n : Int)
  | str (s : String)
deriving DecidableEq, Repr

/-- The dynamic type of an element (`reflect.Value.Type()` of an element). -/
def Elem.type : Elem → ElemType
  | .int _ => .int
  | .str _ => .str

/-- Model of `reflect.Type.Name()` for an element type. -/
def ElemType.name : ElemType → String
  | .int => "int"
  | .str => "string"

/-- Go channel directions (`reflect.ChanDir`): `RecvDir`, `SendDir`, `BothDir`. -/
inductive ChanDir
  | recvOnly
  | sendOnly
  | both
deriving DecidableEq, Repr, Fintype

/-- Test `gotType.ChanDir() & reflect.RecvDir != 0`: the channel supports receiving.
Only a send-only channel fails this test (assert.go:622). -/
def ChanDir.canRecv : ChanDir → Bool
  | .sendOnly => false
  | .recvOnly => true
  | .both => true

/-- A runtime type (`reflect.Type`) as far as `checkContainerTypes` inspects it:
its `Kind` (array, slice, chan with direction, or any other non-container
kind, summarized as `scalar`) and its element type. -/
inductive GoType
  | array (elem : ElemType)
  | slice (elem : ElemType)
  | chan (dir : ChanDir) (elem : ElemType)
  | scalar (elem : ElemType)
deriving DecidableEq, Repr, Fintype

/-- Model of `reflect.Type.Elem()`. For `scalar` the Go call would panic, but
`checkContainerTypes` only invokes `Elem()` on array/slice/chan types. -/
def GoType.elem : GoType → ElemType
  | .array t => t
  | .slice t => t
  | .chan _ t => t
  | .scalar t => t

/-- The observable state of a Go channel at the time of the drain: its
currently buffered elements, in receive order, and whether it is closed. -/
structure ChanState where
  buffer : List Elem
  closed : Bool
deriving DecidableEq, Repr

/-- A runtime value (`interface\x7b\x7d` argument) as far as `HasSameElements`
inspects it. A `slice` with `none` elements is a nil slice; a `ch` with
`none` state is a nil channel; `nilVal` is the untyped `nil` interface,
whose `reflect.TypeOf` is the nil `reflect.Type`. -/
inductive GoVal
  | arr (t : ElemType) (elems : List Elem)
  | slice (t : ElemType) (elems : Option (List Elem))
  | ch (t : ElemType) (dir : ChanDir) (st : Option ChanState)
  | scalarVal (e : Elem)
  | nilVal
deriving DecidableEq, Repr

/-- Model of `reflect.TypeOf` of the value: `none` exactly for the untyped nil
interface. -/
def GoVal.typeOf : GoVal → Option GoType
  | .arr t _ => some (.array t)
  | .slice t _ => some (.slice t)
  | .ch t d _ => some (.chan d t)
  | .scalarVal e => some (.scalar e.type)
  | .nilVal => none

/-- Classification errors reported by `checkContainerTypes` via `t.Errorf`,
one constructor per `Errorf` site (assert.go:623, 628, 634, 644). -/
inductive ClassErr
  | nonReceivingChan
  | notContainer
  | wantNotArraySlice
  | elemMismatch
deriving DecidableEq, Repr

/-- Outcome of `checkContainerTypes`: success, one of the reported
classification errors, or a Go runtime panic. -/
inductive ClassCheck
  | ok
  | err (e : ClassErr)
  | panicked
deriving DecidableEq, Repr

/-- Embedding of `checkContainerTypes(t, gotType, wantType)` (assert.go:613).
The function first evaluates `gotType.Kind()` and `wantType.Kind()`; when
either `reflect.Type` is nil (untyped nil input) that method call
dereferences a nil interface and panics, modelled by `.panicked`.
Then: got must be an array, slice, or receive-capable channel; want must be
an array or slice; the element types must be equal. -/
def checkContainerTypes : Option GoType → Option GoType → ClassCheck
  | none, _ => .panicked
  | some _, none => .panicked
  | some g, some w =>
    let gotErr : Option ClassErr :=
      match g with
      | .array _ => none
      | .slice _ => none
      | .chan d _ => if d.canRecv then none else some .nonReceivingChan
      | .scalar _ => some .notContainer
    match gotErr with
    | some e => .err e
    | none =>
      match w with
      | .array _ => if g.elem = w.elem then .ok else .err .elemMismatch
      | .slice _ => if g.elem = w.elem then .ok else .err .elemMismatch
      | _ => .err .wantNotArraySlice

/-- Embedding of `arrayValues(a)` (assert.go:244): for a non-array value that is nil
(a nil slice) it returns a nil `[]reflect.Value`; otherwise the list of
elements. Only called on array or slice values from `HasSameElements`;
other shapes are unreachable there and map to `none`. -/
def arrayValues : GoVal → Option (List Elem)
  | .arr _ es => some es
  | .slice _ es => es
  | _ => none

/-- Model of `reflect.Value.TryRecv` on a channel value (`none` = nil channel): a
non-blocking receive attempt. It returns `(some v, st)` when a buffered
value is available, and `(none, st)` when the receive cannot finish
without blocking (open and empty, or nil channel) or the channel is
closed and empty. Each attempt returns immediately; no attempt blocks. -/
def tryRecv : Option ChanState → Option Elem × Option ChanState
  | none => (none, none)
  | some ⟨[], c⟩ => (none, some ⟨[], c⟩)
  | some ⟨v :: rest, c⟩ => (some v, some ⟨rest, c⟩)

/-- The receive attempts of the drain loop on a non-nil channel, by
structural recursion on the buffer (each successful `TryRecv` removes one
buffered element; the first attempt on the empty buffer yields no value
and stops the loop). -/
def drainLoop (c : Bool) : List Elem → List Elem × Option ChanState
  | [] => ([], some ⟨[], c⟩)
  | v :: rest =>
    let r := drainLoop c rest
    (v :: r.1, r.2)

/-- The drain loop body of `HasSameElements` (assert.go:760): repeatedly
`TryRecv` until an attempt yields no value; consumed elements form the
sequence in receive order. -/
def drainChan : Option ChanState → List Elem × Option ChanState
  | none => ([], none)
  | some ⟨buffer, c⟩ => drainLoop c buffer

/-- The inner loop of `assertSameArray` (assert.go:669): scan the
`unusedWantIndicies` entries in ascending index order and mark the first
live entry whose element is `reflect.DeepEqual` to `v`. Since the entry
at position `j` is either `j` (live) or `-1` (already matched) and
`wantValue` is immutable, an entry is carried as `some w` (live, holding
the want element at that position) or `none` (matched). Returns the
updated entries, or `none` when no live entry matches `v`. -/
def markFirstMatch (v : Elem) : List (Option Elem) → Option (List (Option Elem))
  | [] => none
  | some w :: rest =>
    if w = v then some (none :: rest)
    else (markFirstMatch v rest).map (fun r => some w :: r)
  | none :: rest => (markFirstMatch v rest).map (fun r => (none : Option Elem) :: r)

/-- The outer loop of `assertSameArray` (assert.go:668): for each got
element in order, try to cancel it against an unused want entry. Returns
the got entries (`none` once matched, mirroring
`unusedGotIndicies[gotIndex] = -1`) and the final unused-want entries. -/
def matchLoop : List Elem → List (Option Elem) → List (Option Elem) × List (Option Elem)
  | [], unusedWant => ([], unusedWant)
  | v :: gs, unusedWant =>
    match markFirstMatch v unusedWant with
    | some unusedWant2 =>
      let r := matchLoop gs unusedWant2
      (none :: r.1, r.2)
    | none =>
      let r := matchLoop gs unusedWant
      (some v :: r.1, r.2)

/-- The surviving got elements (assert.go:681): entries of
`unusedGotIndicies` still live after the loop, in got order. -/
def matchExtra (gotValue wantValue : List Elem) : List Elem :=
  ((matchLoop gotValue (wantValue.map some)).1).filterMap id

/-- The surviving want elements (assert.go:688): entries of
`unusedWantIndicies` still live after the loop, in want order. -/
def matchMissing (gotValue wantValue : List Elem) : List Elem :=
  ((matchLoop gotValue (wantValue.map some)).2).filterMap id

/-- The number of one-to-one cancelled pairs: got entries marked matched
by the loop. -/
def matchedCount (gotValue wantValue : List Elem) : Nat :=
  ((matchLoop gotValue (wantValue.map some)).1).countP fun o => o.isNone

/-- The shapes of arguments the `assert` package passes to `stringify` in
the code under verification: a plain `string` value, a `reflect.Value`
wrapping an element (passed by `assertSameArray`, assert.go:710,717),
and an `[]interface\x7b\x7d` of elements (assert.go:698,703). -/
inductive GoIface
  | goString (s : String)
  | reflectVal (e : Elem)
  | ifaceList (es : List Elem)
deriving DecidableEq, Repr

/-- Rendering `fmt.Sprintf("%+v", e)` of an element: ints in decimal, strings bare
(unquoted, unescaped). -/
def elemPlusV : Elem → String
  | .int n => toString n
  | .str s => s

/-- Rendering `fmt.Sprintf("%+v", i)`. A `reflect.Value` operand is replaced by the
concrete value it holds (fmt's documented special case), so a
`reflect.Value` of a string prints the bare string; a slice prints its
elements space-separated between brackets. -/
def fmtPlusV : GoIface → String
  | .goString s => s
  | .reflectVal e => elemPlusV e
  | .ifaceList es => "[" ++ String.intercalate " " (es.map elemPlusV) ++ "]"

/-- Model of `strconv.CanBackquote` on a single character: a multi-byte rune is
allowed unless it is U+FEFF; a single byte must not be a control
character other than tab, the backquote (0x60), or DEL (0x7F). -/
def canBackquoteChar (c : Char) : Bool :=
  if 0x80 ≤ c.toNat then c.toNat ≠ 0xFEFF
  else ¬((c.toNat < 0x20 ∧ c.toNat ≠ 0x09) ∨ c.toNat = 0x60 ∨ c.toNat = 0x7F)

/-- Model of `strconv.CanBackquote(s)`: every rune passes `canBackquoteChar`.
(A Lean `String` is always valid UTF-8, so the invalid-encoding rejection
of the Go original has no counterpart.) -/
def canBackquote (s : String) : Bool := s.data.all canBackquoteChar

/-- Zero-padded lowercase hexadecimal of width `w`, as used by
`strconv.Quote` escapes. -/
def padHex (n w : Nat) : String :=
  let ds := Nat.toDigits 16 n
  String.mk (List.replicate (w - ds.length) '0' ++ ds)

/-- One character of `strconv.Quote`: the double quote and backslash are
escaped, printable ASCII is kept, the standard escapes are used for
control characters, and remaining runes use hexadecimal escapes
(`unicode.IsPrint` is modelled for the ASCII range — quoting of printable
non-ASCII runes is not exercised anywhere in this development). -/
def quoteChar (c : Char) : String :=
  if c.toNat = 0x22 then "\\\""
  else if c = '\\' then "\\\\"
  else if 0x20 ≤ c.toNat ∧ c.toNat < 0x7F then String.singleton c
  else if c = '\t' then "\\t"
  else if c = '\n' then "\\n"
  else if c.toNat = 0x0D then "\\r"
  else if c.toNat = 0x07 then "\\a"
  else if c.toNat = 0x08 then "\\b"
  else if c.toNat = 0x0C then "\\f"
  else if c.toNat = 0x0B then "\\v"
  else if c.toNat < 0x80 then "\\x" ++ padHex c.toNat 2
  else if c.toNat < 0x10000 then "\\u" ++ padHex c.toNat 4
  else "\\U" ++ padHex c.toNat 8

/-- Model of `strconv.Quote(s)`: a double-quoted, escaped string literal. -/
def goQuote (s : String) : String :=
  "\"" ++ String.join (s.data.map quoteChar) ++ "\""

/-- Embedding of `stringify(i)` (assert.go:193): a `string` is backquoted when
`strconv.CanBackquote` allows it and double-quoted otherwise; every other
argument falls to the default branch `fmt.Sprintf("%+v", i)`. -/
def stringify : GoIface → String
  | .goString s => if canBackquote s then "`" ++ s ++ "`" else goQuote s
  | .reflectVal e => fmtPlusV (.reflectVal e)
  | .ifaceList es => fmtPlusV (.ifaceList es)

/-- Embedding of `assertSameArray(gotValue, wantValue)` (assert.go:654): run the
cancellation loops; if the lengths differ or any element survived, build
the diagnostic report, else return the empty string. Each listed element
is rendered `fmt.Sprintf("(%s) %s", gv.Type().Name(), stringify(gv))`
with `gv` the `reflect.Value` itself (assert.go:710,717). -/
def assertSameArray (gotValue wantValue : List Elem) : String :=
  let gotLen := gotValue.length
  let wantLen := wantValue.length
  let extra := matchExtra gotValue wantValue
  let missing := matchMissing gotValue wantValue
  if gotLen ≠ wantLen ∨ 0 < extra.length ∨ 0 < missing.length then
    let missingStr :=
      if 0 < missing.length then "; missing elements: " ++ stringify (.ifaceList missing)
      else ""
    let extraStr :=
      if 0 < extra.length then "; extra elements: " ++ stringify (.ifaceList extra)
      else ""
    let gotValueStr :=
      gotValue.map fun gv => "(" ++ gv.type.name ++ ") " ++ stringify (.reflectVal gv)
    let wantValueStr :=
      wantValue.map fun wv => "(" ++ wv.type.name ++ ") " ++ stringify (.reflectVal wv)
    "got [" ++ String.intercalate ", " gotValueStr ++ "] (len " ++ toString gotLen ++
      "), wanted [" ++ String.intercalate ", " wantValueStr ++ "] (len " ++
      toString wantLen ++ ")" ++ missingStr ++ extraStr
  else ""

/-- The got Element Sequence as `HasSameElements` materializes it: array
and slice contents via `arrayValues` (a nil `[]reflect.Value` has length
0 and ranges as empty, hence `getD []`), a channel via the non-blocking
drain. Other shapes never reach extraction. -/
def extractedGot : GoVal → List Elem
  | .arr _ es => es
  | .slice _ es => es.getD []
  | .ch _ _ st => (drainChan st).1
  | _ => []

/-- Result of one `HasSameElements` call: success, failure after a
classification error was reported, failure with the mismatch report
message, or a Go runtime panic. -/
inductive CheckResult
  | ok
  | classError (e : ClassErr)
  | mismatch (msg : String)
  | panicked
deriving DecidableEq, Repr

/-- Embedding of `HasSameElements(t, got, want)` (assert.go:740): gate the runtime
types with `checkContainerTypes`; extract `want` with `arrayValues` and
`got` per its kind (arrays/slices with `arrayValues`, channels with the
`TryRecv` drain loop); compare with `assertSameArray`; report the message
and return false when it is non-empty. The `default` switch branch
(assert.go:770) produces the internal-error message. -/
def HasSameElements (got want : GoVal) : CheckResult :=
  match checkContainerTypes got.typeOf want.typeOf with
  | .panicked => .panicked
  | .err e => .classError e
  | .ok =>
    let wantValueArray := (arrayValues want).getD []
    let msg : String :=
      match got with
      | .arr _ es => assertSameArray es wantValueArray
      | .slice _ es => assertSameArray (es.getD []) wantValueArray
      | .ch _ _ st => assertSameArray (drainChan st).1 wantValueArray
      | .scalarVal e => "internal error: unexpected kind " ++ e.type.name
      | .nilVal => "internal error: unexpected kind invalid"
    if msg = "" then .ok else .mismatch msg

/-- Spec-side eligibility of the got shape (spec §4.1, for comparison
with `checkContainerTypes`): a fixed-size array, a dynamically-sized
sequence, or a readable stream — a send-only stream is rejected. -/
def specGotEligible : GoType → Bool
  | .array _ => true
  | .slice _ => true
  | .chan d _ => d.canRecv
  | .scalar _ => false

/-- Spec-side eligibility of the want shape (spec §4.1, for comparison
with `checkContainerTypes`): a fixed-size array or dynamically-sized
sequence; streams are never accepted as the expected side. -/
def specWantEligible : GoType → Bool
  | .array _ => true
  | .slice _ => true
  | .chan _ _ => false
  | .scalar _ => false

/-! ### Lemmas about the cancellation loops -/

theorem markFirstMatch_eq_none (v : Elem) (l : List (Option Elem)) :
    markFirstMatch v l = none ↔ v ∉ l.filterMap id := by
  induction l with
  | nil => simp [markFirstMatch]
  | cons o rest ih =>
    cases o with
    | none =>
      simp only [markFirstMatch, Option.map_eq_none', List.filterMap_cons_none, ih]
      rfl
    | some w =>
      by_cases hw : w = v
      · subst hw
        simp [markFirstMatch]
      · simp only [markFirstMatch, if_neg hw, Option.map_eq_none', ih,
          List.filterMap_cons_some (f := id) (b := w) rfl, List.mem_cons]
        constructor
        · intro h hm
          rcases hm with hm | hm
          · exact hw hm.symm
          · exact h hm
        · intro h hm
          exact h (Or.inr hm)

theorem markFirstMatch_eq_some (v : Elem) :
    ∀ l l2 : List (Option Elem), markFirstMatch v l = some l2 →
      v ∈ l.filterMap id ∧ l2.filterMap id = (l.filterMap id).erase v := by
  intro l
  induction l with
  | nil => intro l2 h; simp [markFirstMatch] at h
  | cons o rest ih =>
    intro l2 h
    cases o with
    | none =>
      cases hm : markFirstMatch v rest with
      | none => rw [markFirstMatch, hm] at h; simp at h
      | some r2 =>
        rw [markFirstMatch, hm] at h
        simp only [Option.map_some', Option.some.injEq] at h
        obtain ⟨hv, he⟩ := ih r2 hm
        subst h
        refine ⟨by simpa using hv, ?_⟩
        simpa using he
    | some w =>
      by_cases hw : w = v
      · subst hw
        rw [markFirstMatch, if_pos rfl] at h
        simp only [Option.some.injEq] at h
        subst h
        refine ⟨by simp, ?_⟩
        simp [List.erase_cons_head]
      · rw [markFirstMatch, if_neg hw] at h
        cases hm : markFirstMatch v rest with
        | none => rw [hm] at h; simp at h
        | some r2 =>
          rw [hm] at h
          simp only [Option.map_some', Option.some.injEq] at h
          obtain ⟨hv, he⟩ := ih r2 hm
          subst h
          have hwv : ¬(w == v) := by simpa using hw
          constructor
          · simp [List.filterMap_cons_some (f := id) (b := w) rfl, hv]
          · simp only [List.filterMap_cons_some (f := id) (b := w) rfl, he]
            rw [List.erase_cons_tail hwv]

theorem matchLoop_fst_length (gs : List Elem) :
    ∀ uw : List (Option Elem), ((matchLoop gs uw).1).length = gs.length := by
  induction gs with
  | nil => intro uw; simp [matchLoop]
  | cons v gs ih =>
    intro uw
    cases hm : markFirstMatch v uw <;> simp [matchLoop, hm, ih]

theorem countP_isNone_add_length_filterMap {α : Type} (l : List (Option α)) :
    l.countP (fun o => o.isNone) + (l.filterMap id).length = l.length := by
  induction l with
  | nil => simp
  | cons o rest ih =>
    cases o <;> simp [List.countP_cons] <;> omega

theorem matchLoop_matched_add_live (gs : List Elem) :
    ∀ uw : List (Option Elem),
      ((matchLoop gs uw).1).countP (fun o => o.isNone) +
        ((matchLoop gs uw).2.filterMap id).length = (uw.filterMap id).length := by
  induction gs with
  | nil => intro uw; simp [matchLoop]
  | cons v gs ih =>
    intro uw
    cases hm : markFirstMatch v uw with
    | none =>
      have h1 := ih uw
      simp [matchLoop, hm, List.countP_cons]
      omega
    | some uw2 =>
      obtain ⟨hmem, he⟩ := markFirstMatch_eq_some v uw uw2 hm
      have hpos : 0 < (uw.filterMap id).length :=
        List.length_pos.mpr (List.ne_nil_of_mem hmem)
      have hlive : (uw2.filterMap id).length + 1 = (uw.filterMap id).length := by
        rw [he, List.length_erase_of_mem hmem]
        omega
      have h1 := ih uw2
      simp [matchLoop, hm, List.countP_cons]
      omega

theorem matchLoop_of_perm (gs : List Elem) :
    ∀ uw : List (Option Elem), gs.Perm (uw.filterMap id) →
      (matchLoop gs uw).1.filterMap id = [] ∧ (matchLoop gs uw).2.filterMap id = [] := by
  induction gs with
  | nil =>
    intro uw h
    have hnil : uw.filterMap id = [] := h.symm.eq_nil
    simp [matchLoop, hnil]
  | cons v gs ih =>
    intro uw h
    have hv : v ∈ uw.filterMap id := h.mem_iff.mp (List.mem_cons_self v gs)
    cases hm : markFirstMatch v uw with
    | none =>
      exact absurd hv ((markFirstMatch_eq_none v uw).mp hm)
    | some uw2 =>
      obtain ⟨_, he⟩ := markFirstMatch_eq_some v uw uw2 hm
      have hperm : gs.Perm (uw2.filterMap id) := by
        rw [he]
        exact (List.cons_perm_iff_perm_erase.mp h).2
      have hih := ih uw2 hperm
      simp only [matchLoop, hm]
      simpa using hih

theorem checkContainerTypes_some_some_ne_panicked (g w : GoType) :
    checkContainerTypes (some g) (some w) ≠ .panicked := by
  cases g <;> cases w <;>
    simp [checkContainerTypes, ChanDir.canRecv] <;>
    split <;> simp_all <;> split <;> simp_all

/-! ### Claim theorems -/

/-- C1: for every element sequence and every permutation of it, the
multiset matcher reports the pair as equivalent: `assertSameArray`
returns the empty message, and `HasSameElements` on an array or slice
holding the sequence versus one holding the permutation succeeds. -/
theorem c1_permutation_equivalent (gotValue wantValue : List Elem)
    (h : gotValue.Perm wantValue) :
    assertSameArray gotValue wantValue = "" ∧
    ∀ t : ElemType,
      HasSameElements (.slice t (some gotValue)) (.slice t (some wantValue)) = .ok ∧
      HasSameElements (.arr t gotValue) (.arr t wantValue) = .ok := by
  have hperm : gotValue.Perm ((wantValue.map some).filterMap id) := by
    simpa [List.filterMap_map] using h
  obtain ⟨hx, hm⟩ := matchLoop_of_perm gotValue (wantValue.map some) hperm
  have hlen := h.length_eq
  have hempty : assertSameArray gotValue wantValue = "" := by
    unfold assertSameArray
    simp [matchExtra, matchMissing, hx, hm, hlen]
  refine ⟨hempty, fun t => ⟨?_, ?_⟩⟩
  · simp [HasSameElements, GoVal.typeOf, checkContainerTypes, GoType.elem,
      arrayValues, hempty]
  · simp [HasSameElements, GoVal.typeOf, checkContainerTypes, GoType.elem,
      arrayValues, hempty]

/-- C1 witness: the concrete scenario `got = [1,2,1,2,1,2]`,
`want = [1,1,1,2,2,2]` is a permutation pair and is reported
equivalent. -/
theorem c1_witness :
    ([Elem.int 1, Elem.int 2, Elem.int 1, Elem.int 2, Elem.int 1, Elem.int 2].Perm
      [Elem.int 1, Elem.int 1, Elem.int 1, Elem.int 2, Elem.int 2, Elem.int 2]) ∧
    assertSameArray
      [Elem.int 1, Elem.int 2, Elem.int 1, Elem.int 2, Elem.int 1, Elem.int 2]
      [Elem.int 1, Elem.int 1, Elem.int 1, Elem.int 2, Elem.int 2, Elem.int 2] = "" ∧
    HasSameElements
      (.slice .int (some [Elem.int 1, Elem.int 2, Elem.int 1, Elem.int 2, Elem.int 1, Elem.int 2]))
      (.slice .int (some [Elem.int 1, Elem.int 1, Elem.int 1, Elem.int 2, Elem.int 2, Elem.int 2]))
      = .ok :=
  ⟨by decide,
   (c1_permutation_equivalent _ _ (by decide)).1,
   ((c1_permutation_equivalent _ _ (by decide)).2 .int).1⟩

/-- C2: the matcher's bookkeeping invariants: the number of one-to-one
cancelled pairs plus the surviving got elements is `len(got)`, the
cancelled pairs plus the surviving want elements is `len(want)`, and the
matcher reports equivalence (empty message) exactly when `extra` and
`missing` are empty and the lengths agree. -/
theorem c2_match_invariants (gotValue wantValue : List Elem) :
    matchedCount gotValue wantValue + (matchExtra gotValue wantValue).length
      = gotValue.length ∧
    matchedCount gotValue wantValue + (matchMissing gotValue wantValue).length
      = wantValue.length ∧
    (assertSameArray gotValue wantValue = "" ↔
      matchExtra gotValue wantValue = [] ∧ matchMissing gotValue wantValue = [] ∧
        gotValue.length = wantValue.length) := by
  refine ⟨?_, ?_, ?_⟩
  · have h1 := countP_isNone_add_length_filterMap (matchLoop gotValue (wantValue.map some)).1
    have h2 := matchLoop_fst_length gotValue (wantValue.map some)
    simp only [matchedCount, matchExtra]
    omega
  · have h1 := matchLoop_matched_add_live gotValue (wantValue.map some)
    have h2 : ((wantValue.map some).filterMap id).length = wantValue.length := by
      simp [List.filterMap_map]
    simp only [matchedCount, matchMissing]
    omega
  · unfold assertSameArray
    by_cases hcond :
        gotValue.length ≠ wantValue.length ∨
          0 < (matchExtra gotValue wantValue).length ∨
          0 < (matchMissing gotValue wantValue).length
    · rw [if_pos hcond]
      constructor
      · intro habs
        have hl := congrArg String.length habs
        simp only [String.length_append] at hl
        have h5 : ("got [" : String).length = 5 := rfl
        have h0 : ("" : String).length = 0 := rfl
        rw [h5, h0] at hl
        omega
      · rintro ⟨hx, hm, hl⟩
        exfalso
        rcases hcond with h | h | h
        · exact h hl
        · rw [hx] at h; simp at h
        · rw [hm] at h; simp at h
    · rw [if_neg hcond]
      push_neg at hcond
      obtain ⟨hl, hx, hm⟩ := hcond
      simp only [Nat.not_lt, Nat.le_zero, List.length_eq_zero] at hx hm
      simp [hl, hx, hm]

/-- C3: `got = [1,1,1]` versus `want = [1,2,2]` is not equivalent, and
duplicates cancel one-for-one (not as a set): exactly one pair cancels,
leaving `extra = [1,1]` and `missing = [2,2]`. -/
theorem c3_duplicate_cancellation :
    matchExtra [Elem.int 1, Elem.int 1, Elem.int 1]
      [Elem.int 1, Elem.int 2, Elem.int 2] = [Elem.int 1, Elem.int 1] ∧
    matchMissing [Elem.int 1, Elem.int 1, Elem.int 1]
      [Elem.int 1, Elem.int 2, Elem.int 2] = [Elem.int 2, Elem.int 2] ∧
    matchedCount [Elem.int 1, Elem.int 1, Elem.int 1]
      [Elem.int 1, Elem.int 2, Elem.int 2] = 1 ∧
    assertSameArray [Elem.int 1, Elem.int 1, Elem.int 1]
      [Elem.int 1, Elem.int 2, Elem.int 2] ≠ "" ∧
    HasSameElements
      (.slice .int (some [Elem.int 1, Elem.int 1, Elem.int 1]))
      (.slice .int (some [Elem.int 1, Elem.int 2, Elem.int 2])) =
      .mismatch (assertSameArray [Elem.int 1, Elem.int 1, Elem.int 1]
        [Elem.int 1, Elem.int 2, Elem.int 2]) := by
  refine ⟨by decide, by decide, by decide, by decide, by decide⟩

/-- C4 counterexample: the claim says a nil slice versus a non-nil empty
slice of the same element type is not equivalent, but `HasSameElements`
reports them equivalent: `arrayValues` returns a nil value list for the
nil slice and `assertSameArray` treats it as a length-0 sequence — there
is no nil/empty gate in `HasSameElements`. -/
theorem c4_counterexample :
    HasSameElements (.slice .int none) (.slice .int (some [])) = .ok := by decide

/-- C4 amended: comparing a nil slice against a non-nil empty slice of
the same element type IS equivalent (the nil sequence is silently treated
as empty), and comparing nil against nil is also equivalent. -/
theorem c4_nil_treated_as_empty (t : ElemType) :
    HasSameElements (.slice t none) (.slice t (some [])) = .ok ∧
    HasSameElements (.slice t none) (.slice t none) = .ok ∧
    HasSameElements (.slice t (some [])) (.slice t none) = .ok := by
  cases t <;> exact ⟨by decide, by decide, by decide⟩

/-- C5: classification succeeds exactly when the got type is an array, a
slice, or a receive-capable channel, the want type is an array or slice
(a channel on the want side is always rejected, as is a send-only got
channel and any non-container shape on either side), and the element
types agree; differing element types fail with the type-mismatch error
regardless of the containers' contents. -/
theorem c5_classifier_characterization :
    (∀ g w : GoType,
      (checkContainerTypes (some g) (some w) = .ok ↔
        specGotEligible g = true ∧ specWantEligible w = true ∧ g.elem = w.elem) ∧
      (specGotEligible g = true → specWantEligible w = true → g.elem ≠ w.elem →
        checkContainerTypes (some g) (some w) = .err .elemMismatch) ∧
      (∀ d t, checkContainerTypes (some g) (some (.chan d t)) ≠ .ok) ∧
      (∀ t, checkContainerTypes (some (.chan .sendOnly t)) (some w)
        = .err .nonReceivingChan) ∧
      (∀ t, checkContainerTypes (some (.scalar t)) (some w) = .err .notContainer) ∧
      (∀ t, checkContainerTypes (some g) (some (.scalar t)) ≠ .ok)) ∧
    (∀ t u : ElemType, ∀ es ws : List Elem, t ≠ u →
      HasSameElements (.slice t (some es)) (.slice u (some ws))
        = .classError .elemMismatch) := by
  constructor
  · decide
  · intro t u es ws h
    simp [HasSameElements, GoVal.typeOf, checkContainerTypes, GoType.elem, h]

/-- C5 witness: a string-typed container against an int-typed container
fails with the type-mismatch error, independently of contents. -/
theorem c5_witness :
    checkContainerTypes (some (.slice .str)) (some (.slice .int))
      = .err .elemMismatch ∧
    HasSameElements (.slice .str (some [Elem.str "a"])) (.slice .int (some [Elem.int 1]))
      = .classError .elemMismatch :=
  ⟨(c5_classifier_characterization.1 (.slice .str) (.slice .int)).2.1
      (by decide) (by decide) (by decide),
   c5_classifier_characterization.2 .str .int [Elem.str "a"] [Elem.int 1] (by decide)⟩

/-- C6: extraction from a readable channel is a non-blocking drain:
`drainChan` unfolds as repeated immediate `tryRecv` attempts stopping at
the first attempt that yields no value; it returns exactly the buffered
elements in receive order (whether or not the channel is closed, so an
unclosed channel yields only its currently buffered elements); a closed
channel buffered with `["a","b","c"]` yields exactly that sequence and a
second drain of the now-empty channel yields the empty sequence. -/
theorem c6_nonblocking_drain :
    (∀ st, drainChan st =
      match tryRecv st with
      | (some v, st2) => (v :: (drainChan st2).1, (drainChan st2).2)
      | (none, st2) => ([], st2)) ∧
    (∀ buffer c, drainChan (some ⟨buffer, c⟩) = (buffer, some ⟨[], c⟩)) ∧
    drainChan (some ⟨[Elem.str "a", Elem.str "b", Elem.str "c"], true⟩) =
      ([Elem.str "a", Elem.str "b", Elem.str "c"], some ⟨[], true⟩) ∧
    drainChan (drainChan (some ⟨[Elem.str "a", Elem.str "b", Elem.str "c"], true⟩)).2 =
      ([], some ⟨[], true⟩) ∧
    HasSameElements (.ch .str .both (some ⟨[Elem.str "a", Elem.str "b", Elem.str "c"], true⟩))
      (.slice .str (some [Elem.str "a", Elem.str "b", Elem.str "c"])) = .ok ∧
    HasSameElements (.ch .str .both (some ⟨[Elem.str "a", Elem.str "b", Elem.str "c"], false⟩))
      (.slice .str (some [Elem.str "a", Elem.str "b", Elem.str "c"])) = .ok := by
  refine ⟨?_, ?_, by decide, by decide, by decide, by decide⟩
  · intro st
    cases st with
    | none => rfl
    | some s =>
      cases s with
      | mk buffer c => cases buffer <;> rfl
  · intro buffer c
    induction buffer with
    | nil => rfl
    | cons v rest ih =>
      simp only [drainChan, drainLoop] at ih ⊢
      rw [ih]

/-- C7 counterexample: on the untyped nil input the checker does not
terminate normally: `reflect.TypeOf(nil)` is the nil `reflect.Type` and
`checkContainerTypes` calls `Kind()` on it, which panics. -/
theorem c7_counterexample :
    HasSameElements .nilVal (.slice .int (some [])) = .panicked := by decide

/-- C7 amended: for every pair of inputs whose runtime type is non-nil,
the checker terminates normally and the only failure modes are the
classification errors and the structured mismatch outcome (every mismatch
message is the non-empty `assertSameArray` report of the extracted
sequences — in particular the internal-error branch is unreachable);
with an untyped nil on either side it panics instead. -/
theorem c7_no_panic_nonnil (got want : GoVal)
    (hg : got ≠ .nilVal) (hw : want ≠ .nilVal) :
    HasSameElements got want ≠ .panicked ∧
    ∀ s, HasSameElements got want = .mismatch s →
      s ≠ "" ∧ s = assertSameArray (extractedGot got) ((arrayValues want).getD []) := by
  obtain ⟨wt, hwt⟩ : ∃ wt, want.typeOf = some wt := by
    cases want with
    | nilVal => exact absurd rfl hw
    | arr t es => exact ⟨_, rfl⟩
    | slice t es => exact ⟨_, rfl⟩
    | ch t d st => exact ⟨_, rfl⟩
    | scalarVal e => exact ⟨_, rfl⟩
  cases got with
  | nilVal => exact absurd rfl hg
  | scalarVal e =>
    have hcc : checkContainerTypes (GoVal.scalarVal e).typeOf want.typeOf
        = .err .notContainer := by
      rw [hwt]
      simp [GoVal.typeOf, checkContainerTypes]
    have hres : HasSameElements (.scalarVal e) want = .classError .notContainer := by
      simp [HasSameElements, hcc]
    rw [hres]
    exact ⟨by simp, by simp⟩
  | arr t es =>
    cases hr : checkContainerTypes (GoVal.arr t es).typeOf want.typeOf with
    | panicked =>
      rw [show (GoVal.arr t es).typeOf = some (.array t) from rfl, hwt] at hr
      exact absurd hr (checkContainerTypes_some_some_ne_panicked _ _)
    | err e =>
      have hres : HasSameElements (.arr t es) want = .classError e := by
        simp [HasSameElements, hr]
      rw [hres]
      exact ⟨by simp, by simp⟩
    | ok =>
      have hres : HasSameElements (.arr t es) want =
          if assertSameArray es ((arrayValues want).getD []) = "" then .ok
          else .mismatch (assertSameArray es ((arrayValues want).getD [])) := by
        simp [HasSameElements, hr]
      rw [hres]
      split
      · exact ⟨by simp, by simp⟩
      · next hne =>
        refine ⟨by simp, ?_⟩
        intro s hs
        cases hs
        exact ⟨hne, rfl⟩
  | slice t es =>
    cases hr : checkContainerTypes (GoVal.slice t es).typeOf want.typeOf with
    | panicked =>
      rw [show (GoVal.slice t es).typeOf = some (.slice t) from rfl, hwt] at hr
      exact absurd hr (checkContainerTypes_some_some_ne_panicked _ _)
    | err e =>
      have hres : HasSameElements (.slice t es) want = .classError e := by
        simp [HasSameElements, hr]
      rw [hres]
      exact ⟨by simp, by simp⟩
    | ok =>
      have hres : HasSameElements (.slice t es) want =
          if assertSameArray (es.getD []) ((arrayValues want).getD []) = "" then .ok
          else .mismatch (assertSameArray (es.getD []) ((arrayValues want).getD [])) := by
        simp [HasSameElements, hr]
      rw [hres]
      split
      · exact ⟨by simp, by simp⟩
      · next hne =>
        refine ⟨by simp, ?_⟩
        intro s hs
        cases hs
        exact ⟨hne, rfl⟩
  | ch t d st =>
    cases hr : checkContainerTypes (GoVal.ch t d st).typeOf want.typeOf with
    | panicked =>
      rw [show (GoVal.ch t d st).typeOf = some (.chan d t) from rfl, hwt] at hr
      exact absurd hr (checkContainerTypes_some_some_ne_panicked _ _)
    | err e =>
      have hres : HasSameElements (.ch t d st) want = .classError e := by
        simp [HasSameElements, hr]
      rw [hres]
      exact ⟨by simp, by simp⟩
    | ok =>
      have hres : HasSameElements (.ch t d st) want =
          if assertSameArray (drainChan st).1 ((arrayValues want).getD []) = "" then .ok
          else .mismatch (assertSameArray (drainChan st).1 ((arrayValues want).getD [])) := by
        simp [HasSameElements, hr]
      rw [hres]
      split
      · exact ⟨by simp, by simp⟩
      · next hne =>
        refine ⟨by simp, ?_⟩
        intro s hs
        cases hs
        exact ⟨hne, rfl⟩

/-- C7 witness: a concrete non-nil mismatching pair neither panics nor
produces any outcome outside the taxonomy. -/
theorem c7_witness :
    HasSameElements (.slice .int (some [Elem.int 1])) (.slice .int (some []))
      ≠ .panicked :=
  (c7_no_panic_nonnil _ _ (by decide) (by decide)).1

/-- C8: on mismatch the report contains the full got listing, the full
want listing (each in original sequence order, elements rendered
`(type) value`), both lengths, a missing-elements clause exactly when
`missing` is non-empty and an extra-elements clause exactly when `extra`
is non-empty; on equivalence no report is produced. Determinism is
immediate: the report is this pure function of the two sequences. -/
theorem c8_report_format (gotValue wantValue : List Elem) :
    (assertSameArray gotValue wantValue ≠ "" →
      assertSameArray gotValue wantValue =
        "got [" ++
          String.intercalate ", "
            (gotValue.map fun gv =>
              "(" ++ gv.type.name ++ ") " ++ stringify (.reflectVal gv)) ++
          "] (len " ++ toString gotValue.length ++ "), wanted [" ++
          String.intercalate ", "
            (wantValue.map fun wv =>
              "(" ++ wv.type.name ++ ") " ++ stringify (.reflectVal wv)) ++
          "] (len " ++ toString wantValue.length ++ ")" ++
          (if matchMissing gotValue wantValue ≠ [] then
            "; missing elements: " ++ stringify (.ifaceList (matchMissing gotValue wantValue))
          else "") ++
          (if matchExtra gotValue wantValue ≠ [] then
            "; extra elements: " ++ stringify (.ifaceList (matchExtra gotValue wantValue))
          else "")) ∧
    (matchExtra gotValue wantValue = [] → matchMissing gotValue wantValue = [] →
      gotValue.length = wantValue.length → assertSameArray gotValue wantValue = "") := by
  constructor
  · intro hne
    by_cases hcond :
        gotValue.length ≠ wantValue.length ∨
          0 < (matchExtra gotValue wantValue).length ∨
          0 < (matchMissing gotValue wantValue).length
    · simp only [assertSameArray]
      rw [if_pos hcond]
      simp only [List.length_pos]
    · exfalso
      apply hne
      simp only [assertSameArray]
      rw [if_neg hcond]
  · intro hx hm hl
    have hcond :
        ¬(gotValue.length ≠ wantValue.length ∨
          0 < (matchExtra gotValue wantValue).length ∨
          0 < (matchMissing gotValue wantValue).length) := by
      simp [hx, hm, hl]
    simp only [assertSameArray]
    rw [if_neg hcond]

/-- C8 witness: a concrete mismatch report with an extra clause and no
missing clause, and the empty report on equivalent inputs. -/
theorem c8_witness :
    assertSameArray [Elem.int 1] [] =
      "got [(int) 1] (len 1), wanted [] (len 0); extra elements: [1]" ∧
    assertSameArray ([] : List Elem) [] = "" :=
  ⟨by rw [(c8_report_format [Elem.int 1] []).1 (by decide)]; decide,
   (c8_report_format [] []).2 rfl rfl rfl⟩

/-- C9: what the report actually renders. `assertSameArray` passes the
`reflect.Value` itself (not its `Interface()`) to `stringify`, so the
string branch of `stringify` never fires there: a string element prints
bare via `fmt`'s `%+v` (which unwraps a `reflect.Value`), not as a
backtick-quoted literal, and the missing/extra clauses print via `%+v`
of an `[]interface` slice, also without per-element quoting — no
backquote occurs anywhere in the report, although `stringify` applied to
the string itself would backquote it. -/
theorem c9_actual_rendering :
    assertSameArray [Elem.str "xyz"] [Elem.str "pdq"] =
      "got [(string) xyz] (len 1), wanted [(string) pdq] (len 1); missing elements: [pdq]; extra elements: [xyz]" ∧
    stringify (.goString "xyz") = "`xyz`" ∧
    (Char.ofNat 0x60) ∉ (assertSameArray [Elem.str "xyz"] [Elem.str "pdq"]).data := by
  refine ⟨by decide, by decide, by decide⟩

/-- C10: a nil receive-capable channel drains to the empty sequence (the
first `TryRecv` attempt immediately reports no value available), so
`HasSameElements` on a nil channel versus an empty want array or slice of
the same element type reports equivalence. -/
theorem c10_nil_channel_empty :
    tryRecv none = (none, none) ∧
    drainChan none = ([], none) ∧
    ∀ t : ElemType,
      HasSameElements (.ch t .both none) (.arr t []) = .ok ∧
      HasSameElements (.ch t .both none) (.slice t (some [])) = .ok ∧
      HasSameElements (.ch t .recvOnly none) (.arr t []) = .ok ∧
      HasSameElements (.ch t .recvOnly none) (.slice t (some [])) = .ok := by
  refine ⟨rfl, rfl, ?_⟩
  intro t
  cases t <;> exact ⟨by decide, by decide, by decide, by decide⟩

end TbnTest
